import Mathlib

/-!
Verification of the per-chat playback queue of the Krishnavi music bot
(src/bot.py) via a shallow embedding of its queue store, playback
sequencer, command handlers and resolver helpers.
-/

/-- A resolved track, mirroring the `Track` dataclass (src/bot.py lines 50-56). -/
structure Track where
  title : String
  url : String
  page_url : String
  requester : String
  duration : Option String := none
deriving DecidableEq

/-- Per-chat mutable state: the pending deque `queues[cid]` (head at the left)
and the `now_playing[cid]` slot (src/bot.py lines 58-61). -/
structure ChatState where
  queue : List Track
  now : Option Track
deriving DecidableEq

/-- The initial (idle) per-chat state: `defaultdict` gives an empty deque and a
`None` slot (src/bot.py lines 59-60). -/
def chatInit : ChatState := { queue := [], now := none }

/-- The exception kinds the driver can raise; `play_next` catches bare
`Exception`, so control flow never inspects the kind (src/bot.py lines 112-120). -/
inductive PyError
  | groupCallNotFound
  | otherError
deriving DecidableEq

/-- Outcome of one start attempt for a track inside `play_next`
(src/bot.py lines 112-120): `join_group_call` succeeds; or it raises and
`change_stream` succeeds; or both raise, in which case the code clears
`now_playing` and re-raises. -/
inductive StartOutcome
  | joinOk
  | changeOk (joinErr : PyError)
  | bothFail (joinErr : PyError) (changeErr : PyError)
deriving DecidableEq

/-- Whether a start outcome makes `play_next` re-raise (src/bot.py line 120). -/
def aborts : StartOutcome → Bool
  | StartOutcome.bothFail _ _ => true
  | _ => false

/-- Result of running the `while queues[chat_id]` loop of `play_next` to
completion or to an uncaught exception (src/bot.py lines 107-134). -/
structure DrainResult where
  handed : List String
  queue : List Track
  now : Option Track
  aborted : Bool
deriving DecidableEq

/-- The body of `play_next` (src/bot.py lines 107-134), holding the chat's
lock: while the deque is non-empty, pop the head (line 110), set it as
`now_playing` (line 111) and hand its stream URL to the driver via
`join_group_call` / `change_stream` (lines 113, 117).  If both calls raise,
`now_playing` is cleared and the exception propagates, ending the loop with
the rest of the deque untouched (lines 119-120).  Otherwise the polling wait
runs (lines 124-127, modelled separately as `waitLoop` since it only spends
time) and the loop continues.  On normal exit the bot leaves the call
(failures swallowed) and clears `now_playing` (lines 129-134).  `outcome n`
is the driver's behaviour for the n-th start attempt; `handed` records the
stream URLs handed to the driver, in order. -/
def play_next_loop (outcome : Nat → StartOutcome) (n : Nat) (q : List Track) : DrainResult :=
  match q with
  | [] => { handed := [], queue := [], now := none, aborted := false }
  | t :: rest =>
    match outcome n with
    | StartOutcome.bothFail _ _ =>
        { handed := [], queue := rest, now := none, aborted := true }
    | _ =>
        let r := play_next_loop outcome (n + 1) rest
        { handed := t.url :: r.handed, queue := r.queue, now := r.now, aborted := r.aborted }

/-- `cmd_play`'s effect on the queue store after a successful resolution:
`queues[cid].append(track)`, appending at the right end (src/bot.py line 176). -/
def cmd_play_enqueue (st : ChatState) (t : Track) : ChatState :=
  { st with queue := st.queue ++ [t] }

theorem foldl_cmd_play_enqueue (ts : List Track) :
    ∀ st : ChatState, (List.foldl cmd_play_enqueue st ts).queue = st.queue ++ ts := by
  induction ts with
  | nil => intro st; simp
  | cons t ts ih =>
      intro st
      simp [List.foldl, ih, cmd_play_enqueue]

theorem play_next_loop_handed_all_ok (outcome : Nat → StartOutcome)
    (h : ∀ m, aborts (outcome m) = false) :
    ∀ (q : List Track) (n : Nat),
      (play_next_loop outcome n q).handed = q.map Track.url := by
  intro q
  induction q with
  | nil => intro n; simp [play_next_loop]
  | cons t rest ih =>
      intro n
      have hn := h n
      cases ho : outcome n with
      | joinOk => simp [play_next_loop, ho, ih]
      | changeOk e => simp [play_next_loop, ho, ih]
      | bothFail e1 e2 => rw [ho] at hn; simp [aborts] at hn

/-- Claim C1: tracks are handed to the Voice Session Driver in exactly the
order they were enqueued.  `cmd_play` appends to the right of the chat's
deque and `play_next` pops from the left, so when every start attempt
succeeds the sequence of stream URLs handed via `join_group_call` /
`change_stream` equals the enqueue order (FIFO). -/
theorem play_order_is_fifo (ts : List Track) (outcome : Nat → StartOutcome)
    (h : ∀ m, aborts (outcome m) = false) :
    (play_next_loop outcome 0 (List.foldl cmd_play_enqueue chatInit ts).queue).handed
      = ts.map Track.url := by
  rw [foldl_cmd_play_enqueue, show chatInit.queue = [] from rfl, List.nil_append]
  exact play_next_loop_handed_all_ok outcome h ts 0

def trackA : Track := { title := "A", url := "streamA", page_url := "pageA", requester := "u" }

def trackB : Track := { title := "B", url := "streamB", page_url := "pageB", requester := "u" }

/-- Witness for C1: enqueueing A then B and draining with a cooperative
driver hands streamA then streamB, in enqueue order. -/
theorem play_order_is_fifo_witness :
    (play_next_loop (fun _ => StartOutcome.joinOk) 0
        (List.foldl cmd_play_enqueue chatInit [trackA, trackB]).queue).handed
      = ["streamA", "streamB"] :=
  play_order_is_fifo [trackA, trackB] (fun _ => StartOutcome.joinOk) (fun _ => rfl)

theorem play_next_loop_bothFail (outcome : Nat → StartOutcome) (n : Nat)
    (t : Track) (rest : List Track) (e1 e2 : PyError)
    (h : outcome n = StartOutcome.bothFail e1 e2) :
    play_next_loop outcome n (t :: rest)
      = { handed := [], queue := rest, now := none, aborted := true } := by
  simp [play_next_loop, h]

/-- A driver that fails both `join_group_call` and `change_stream` with
generic (non-session) errors on the first track and cooperates afterwards. -/
def otherErrorThenOk : Nat → StartOutcome :=
  fun n => if n = 0 then StartOutcome.bothFail PyError.otherError PyError.otherError
           else StartOutcome.joinOk

/-- Counterexample for C2: with queue [A, B] and a generic stream failure on
track A, the claim says the Sequencer discards A and continues with B, so
B's stream would be handed to the driver.  In the code the inner handler
re-raises (src/bot.py line 120), ending the whole drain: nothing is handed,
B is never started, and the loop is aborted. -/
theorem cmd_play_other_error_cex :
    (play_next_loop otherErrorThenOk 0 [trackA, trackB]).aborted = true ∧
    (play_next_loop otherErrorThenOk 0 [trackA, trackB]).handed = [] ∧
    Track.url trackB ∉ (play_next_loop otherErrorThenOk 0 [trackA, trackB]).handed := by
  refine ⟨rfl, rfl, ?_⟩
  simp [play_next_loop, otherErrorThenOk]

/-- Claim C2 (amended): when starting a track fails on both `join_group_call`
and `change_stream` with any error, the Sequencer clears the
currently-playing slot, discards that track, and aborts the drain loop by
re-raising the exception; the remaining pending tracks stay queued and no
further track is handed until a later enqueue starts a fresh Sequencer
task. -/
theorem play_next_other_error_aborts (outcome : Nat → StartOutcome) (n : Nat)
    (t : Track) (rest : List Track)
    (h : outcome n = StartOutcome.bothFail PyError.otherError PyError.otherError) :
    (play_next_loop outcome n (t :: rest)).now = none ∧
    (play_next_loop outcome n (t :: rest)).queue = rest ∧
    (play_next_loop outcome n (t :: rest)).aborted = true ∧
    (play_next_loop outcome n (t :: rest)).handed = [] := by
  rw [play_next_loop_bothFail outcome n t rest _ _ h]
  exact ⟨rfl, rfl, rfl, rfl⟩

/-- Witness for the amended C2: concrete failure on the head of [A, B]. -/
theorem play_next_other_error_aborts_witness :
    (play_next_loop otherErrorThenOk 0 [trackA, trackB]).queue = [trackB] ∧
    (play_next_loop otherErrorThenOk 0 [trackA, trackB]).now = none :=
  ⟨(play_next_other_error_aborts otherErrorThenOk 0 trackA [trackB] rfl).2.1,
   (play_next_other_error_aborts otherErrorThenOk 0 trackA [trackB] rfl).1⟩

/-- Claim C3: when the start of a track fails because no active voice
session exists (`GroupCallNotFoundError` from `join_group_call`, after which
`change_stream` also fails), the Sequencer aborts sequencing for the chat,
the currently-playing slot returns to empty (Idle), and every track that was
pending at the moment of failure is still pending afterwards, so a later
enqueue can retry the same queue. -/
theorem play_next_no_active_session (outcome : Nat → StartOutcome) (n : Nat)
    (t : Track) (rest : List Track) (e : PyError)
    (h : outcome n = StartOutcome.bothFail PyError.groupCallNotFound e) :
    (play_next_loop outcome n (t :: rest)).aborted = true ∧
    (play_next_loop outcome n (t :: rest)).now = none ∧
    (play_next_loop outcome n (t :: rest)).queue = rest ∧
    ∀ p, p ∈ rest → p ∈ (play_next_loop outcome n (t :: rest)).queue := by
  rw [play_next_loop_bothFail outcome n t rest _ _ h]
  exact ⟨rfl, rfl, rfl, fun p hp => hp⟩

/-- A driver with no active voice session: `join_group_call` raises
`GroupCallNotFoundError` and the fallback `change_stream` also raises. -/
def noSessionDriver : Nat → StartOutcome :=
  fun _ => StartOutcome.bothFail PyError.groupCallNotFound PyError.otherError

/-- Witness for C3: with queue [A, B] and no active session, the drain
aborts idle and B is still pending. -/
theorem play_next_no_active_session_witness :
    (play_next_loop noSessionDriver 0 [trackA, trackB]).now = none ∧
    trackB ∈ (play_next_loop noSessionDriver 0 [trackA, trackB]).queue :=
  ⟨(play_next_no_active_session noSessionDriver 0 trackA [trackB] PyError.otherError rfl).2.1,
   (play_next_no_active_session noSessionDriver 0 trackA [trackB] PyError.otherError rfl).2.2.2
     trackB (List.mem_singleton.mpr rfl)⟩

/-- A call issued to the PyTgCalls driver. -/
inductive DriverCall
  | joinCall (url : String)
  | changeCall (url : String)
  | leaveCall
deriving DecidableEq

/-- The `/skip` handler `cmd_skip` (src/bot.py lines 203-220).  With nothing
playing it replies "Nothing to skip." and changes no state (lines 206-208).
Otherwise it clears `now_playing` (line 209) and then, best-effort: with a
non-empty deque it asks the driver to switch to the head's stream without
popping it (lines 211-215); with an empty deque it asks the driver to leave
(lines 216-218).  A driver failure only changes the reply (lines 219-220),
`callOk` says whether the driver call succeeded. -/
def cmd_skip (callOk : Bool) (st : ChatState) : ChatState × List DriverCall × String :=
  match st.now with
  | none => (st, ([], "Nothing to skip."))
  | some _ =>
    let cleared : ChatState := { st with now := none }
    match st.queue with
    | nxt :: _ =>
        (cleared, ([DriverCall.changeCall nxt.url],
          if callOk then "Skipping" else "Skip failed, but I will try to play next."))
    | [] =>
        (cleared, ([DriverCall.leaveCall],
          if callOk then "Stopped (queue empty)." else "Skip failed, but I will try to play next."))

/-- One resumption of the `play_next` loop after its poll observes that
`now_playing` was cleared (src/bot.py lines 126-128): the `while` condition
is re-checked (line 109); a non-empty deque has its head popped and set as
currently playing and its stream handed to the driver (lines 110-120, with
`outcome` the driver's behaviour); an empty deque makes the loop exit,
leave the call and clear `now_playing` (lines 129-134). -/
def sequencer_resume (outcome : StartOutcome) (st : ChatState) : ChatState × List DriverCall :=
  match st.queue with
  | [] => ({ queue := [], now := none }, [DriverCall.leaveCall])
  | t :: rest =>
    match outcome with
    | StartOutcome.joinOk =>
        ({ queue := rest, now := some t }, [DriverCall.joinCall t.url])
    | StartOutcome.changeOk _ =>
        ({ queue := rest, now := some t },
         [DriverCall.joinCall t.url, DriverCall.changeCall t.url])
    | StartOutcome.bothFail _ _ =>
        ({ queue := rest, now := none },
         [DriverCall.joinCall t.url, DriverCall.changeCall t.url])

/-- Claim C4: with nothing playing, `/skip` only replies "Nothing to skip."
and changes no state.  With a track playing and a non-empty pending
sequence, the skip (clearing the slot) followed by the Sequencer loop's
resumption makes the old head of the pending sequence the currently-playing
track, removed from the pending sequence, while the previously playing
track is discarded; with an empty pending sequence the slot stays empty and
the voice session is released via a leave call. -/
theorem cmd_skip_spec (st : ChatState) :
    (st.now = none → cmd_skip true st = (st, ([], "Nothing to skip."))) ∧
    (∀ old, st.now = some old →
      (∀ t rest, st.queue = t :: rest →
        (cmd_skip true st).1.now = none ∧
        (sequencer_resume (StartOutcome.changeOk PyError.otherError) (cmd_skip true st).1).1.now
          = some t ∧
        (sequencer_resume (StartOutcome.changeOk PyError.otherError) (cmd_skip true st).1).1.queue
          = rest) ∧
      (st.queue = [] →
        (cmd_skip true st).1.now = none ∧
        DriverCall.leaveCall ∈ (cmd_skip true st).2.1)) := by
  constructor
  · intro hnone
    simp [cmd_skip, hnone]
  · intro old hsome
    constructor
    · intro t rest hq
      simp [cmd_skip, hsome, hq, sequencer_resume]
    · intro hq
      simp [cmd_skip, hsome, hq]

/-- Witness for C4: skipping while A plays with pending [B] leaves B
currently playing and the pending sequence empty. -/
theorem cmd_skip_spec_witness :
    (sequencer_resume (StartOutcome.changeOk PyError.otherError)
        (cmd_skip true { queue := [trackB], now := some trackA }).1).1.now = some trackB ∧
    (sequencer_resume (StartOutcome.changeOk PyError.otherError)
        (cmd_skip true { queue := [trackB], now := some trackA }).1).1.queue = [] :=
  ⟨((cmd_skip_spec { queue := [trackB], now := some trackA }).2 trackA rfl).1
      trackB [] rfl |>.2.1,
   ((cmd_skip_spec { queue := [trackB], now := some trackA }).2 trackA rfl).1
      trackB [] rfl |>.2.2⟩

/-- The `/leave` handler `cmd_leave` (src/bot.py lines 238-246): it first
clears the chat's deque (line 241) and the `now_playing` slot (line 242),
then asks the driver to leave the call; a failure there is caught and only
changes the reply (lines 245-246), after the state was already cleared.
`leaveOk` says whether `leave_group_call` succeeded. -/
def cmd_leave (leaveOk : Bool) (st : ChatState) : ChatState × String :=
  let cleared : ChatState := { st with queue := [] }
  let cleared2 : ChatState := { cleared with now := none }
  if leaveOk then (cleared2, "Left the voice chat. Bye!")
  else (cleared2, "Leave failed")

/-- Claim C6: after the `/leave` command, the chat's pending sequence and
its currently-playing slot are both empty, for every prior state and even
when the driver's leave call fails. -/
theorem cmd_leave_clears (leaveOk : Bool) (st : ChatState) :
    (cmd_leave leaveOk st).1.queue = [] ∧ (cmd_leave leaveOk st).1.now = none := by
  cases leaveOk <;> exact ⟨rfl, rfl⟩

/-- The polling wait of `play_next` while a track is playing (src/bot.py
lines 124-127): up to 60*60*4 iterations, each sleeping 5 seconds and then
breaking if `now_playing` was cleared.  `cleared i` says whether the check
after the i-th sleep observes an empty slot; the result is the number of
sleeps performed. -/
def waitLoop (cleared : Nat → Bool) : Nat → Nat → Nat
  | 0, sleeps => sleeps
  | fuel + 1, sleeps =>
      if cleared sleeps then sleeps + 1 else waitLoop cleared fuel (sleeps + 1)

/-- Total number of sleep iterations of one wait (src/bot.py line 124). -/
def waitSleeps (cleared : Nat → Bool) : Nat := waitLoop cleared (60 * 60 * 4) 0

theorem waitLoop_le (cleared : Nat → Bool) :
    ∀ fuel sleeps, waitLoop cleared fuel sleeps ≤ sleeps + fuel := by
  intro fuel
  induction fuel with
  | zero => intro sleeps; simp [waitLoop]
  | succ f ih =>
      intro sleeps
      by_cases h : cleared sleeps = true
      · simp [waitLoop, h]
      · have hf : cleared sleeps = false := by simpa using h
        have := ih (sleeps + 1)
        simp [waitLoop, hf]
        omega

theorem waitLoop_never_cleared :
    ∀ fuel sleeps, waitLoop (fun _ => false) fuel sleeps = sleeps + fuel := by
  intro fuel
  induction fuel with
  | zero => intro sleeps; simp [waitLoop]
  | succ f ih =>
      intro sleeps
      simp [waitLoop, ih (sleeps + 1)]
      omega

/-- Claim C9: the Sequencer's wait on a playing track always terminates
within the fixed ceiling of 60*60*4 sleep iterations; with a slot that is
never cleared externally it performs exactly the ceiling and then the loop
advances to the next dequeuing step, handing the next pending track, so a
Sequencer task never waits forever on one track. -/
theorem play_next_wait_bounded :
    (∀ cleared : Nat → Bool, waitSleeps cleared ≤ 60 * 60 * 4) ∧
    waitSleeps (fun _ => false) = 60 * 60 * 4 ∧
    (∀ (outcome : Nat → StartOutcome) (n : Nat) (t : Track) (rest : List Track),
      aborts (outcome n) = false →
      (play_next_loop outcome n (t :: rest)).handed
        = t.url :: (play_next_loop outcome (n + 1) rest).handed) := by
  refine ⟨fun cleared => ?_, ?_, ?_⟩
  · have := waitLoop_le cleared (60 * 60 * 4) 0
    simpa [waitSleeps] using this
  · have := waitLoop_never_cleared (60 * 60 * 4) 0
    simpa [waitSleeps] using this
  · intro outcome n t rest h
    cases ho : outcome n with
    | joinOk => simp [play_next_loop, ho]
    | changeOk e => simp [play_next_loop, ho]
    | bothFail e1 e2 => rw [ho] at h; simp [aborts] at h

/-- Witness for C9: a wait that is never cleared performs exactly the
ceiling number of sleeps, and the drain of [A] then advances. -/
theorem play_next_wait_bounded_witness :
    waitSleeps (fun _ => false) ≤ 60 * 60 * 4 ∧
    (play_next_loop (fun _ => StartOutcome.joinOk) 0 [trackA]).handed
      = trackA.url :: (play_next_loop (fun _ => StartOutcome.joinOk) 1 []).handed :=
  ⟨play_next_wait_bounded.1 (fun _ => false),
   play_next_wait_bounded.2.2 (fun _ => StartOutcome.joinOk) 0 trackA [] rfl⟩

/-- Two-digit zero padding, as the Python format spec 02d used for the
minute and second fields (src/bot.py line 79). -/
def pad2 (n : Nat) : String :=
  if n < 10 then "0" ++ toString n else toString n

/-- The duration formatting of `_ydl_extract` (src/bot.py lines 76-79):
`h, m = divmod(secs, 3600)` then `m, s = divmod(m, 60)`, rendered as
H:MM:SS when the hour component is truthy and as M:SS otherwise. -/
def formatDuration (secs : Nat) : String :=
  let h := secs / 3600
  let m0 := secs % 3600
  let m := m0 / 60
  let s := m0 % 60
  if h ≠ 0 then toString h ++ ":" ++ pad2 m ++ ":" ++ pad2 s
  else toString m ++ ":" ++ pad2 s

/-- The duration field of the returned tuple (src/bot.py lines 73-79):
`duration` stays `None` unless `info.get("duration")` is truthy, so an
absent duration and a duration of 0 seconds are both omitted. -/
def durationField (d : Option Nat) : Option String :=
  match d with
  | some secs => if secs ≠ 0 then some (formatDuration secs) else none
  | none => none

/-- Modelled from the spec: "format duration as H:MM:SS when hours > 0,
else M:SS" for a known duration in whole seconds, used to compare the
code's formatting against the spec's words. -/
def specDurationString (secs : Nat) : String :=
  let hours := secs / 3600
  let minutes := (secs / 60) % 60
  let seconds := secs % 60
  if 0 < hours then toString hours ++ ":" ++ pad2 minutes ++ ":" ++ pad2 seconds
  else toString minutes ++ ":" ++ pad2 seconds

/-- Counterexample for C7: a known duration of 0 whole seconds would format
to "0:00" under the claimed mapping, but the code's truthiness test
`if info.get("duration")` (src/bot.py line 74) treats 0 as unknown and
omits it. -/
theorem duration_zero_cex :
    durationField (some 0) = none ∧ specDurationString 0 = "0:00" ∧
    durationField (some 0) ≠ some (specDurationString 0) := by
  refine ⟨rfl, rfl, ?_⟩
  intro h
  exact Option.noConfusion h

theorem formatDuration_eq_spec (secs : Nat) :
    formatDuration secs = specDurationString secs := by
  have h1 : secs % 3600 / 60 = secs / 60 % 60 := by
    have := Nat.mod_mul_right_div_self secs 60 60
    simpa using this
  have h2 : secs % 3600 % 60 = secs % 60 :=
    Nat.mod_mod_of_dvd secs (by omega)
  by_cases hh : secs / 3600 = 0
  · simp [formatDuration, specDurationString, hh, h1, h2]
  · simp [formatDuration, specDurationString, hh, Nat.pos_of_ne_zero hh, h1, h2]

/-- Claim C7 (amended): for a known positive duration the resolver formats
H:MM:SS when the hour component is positive and M:SS otherwise, exactly as
the spec's rule describes; an unknown duration is omitted, and so is a
known duration of 0 seconds, which the code's truthiness test conflates
with unknown.  In particular 45 seconds gives "0:45" and 3665 seconds gives
"1:01:05". -/
theorem duration_formatting (secs : Nat) (h : 0 < secs) :
    durationField (some secs) = some (specDurationString secs) ∧
    durationField none = none ∧
    durationField (some 45) = some "0:45" ∧
    durationField (some 3665) = some "1:01:05" := by
  refine ⟨?_, rfl, rfl, rfl⟩
  have hne : secs ≠ 0 := by omega
  simp [durationField, hne, formatDuration_eq_spec]

/-- Witness for the amended C7 at 45 seconds. -/
theorem duration_formatting_witness :
    durationField (some 45) = some (specDurationString 45) :=
  (duration_formatting 45 (by omega)).1

/-- Python truthiness of an optional string field read with dict.get: falsy
when the key is absent or maps to the empty string. -/
def truthy : Option String → Bool
  | none => false
  | some s => !(s == "")

/-- One entry of the `formats` array, with the fields `_ydl_extract` reads
(src/bot.py lines 87-89). -/
structure YFormat where
  acodec : Option String
  video_codec : Option String
  url : Option String
deriving DecidableEq

/-- The format-scanning predicate of src/bot.py line 88: a truthy `acodec`
and a falsy `video_codec`. -/
def audioOnly (f : YFormat) : Bool :=
  truthy f.acodec && !(truthy f.video_codec)

/-- The stream-URL selection of `_ydl_extract` (src/bot.py lines 82-91).
When the top-level `url` and `acodec` are both truthy that URL is used
(lines 83-84).  Otherwise the first entry of `formats` with a truthy
`acodec` and falsy `video_codec` is chosen; with no match, the last entry
of `formats`; with no formats at all, nothing (lines 87-89).  A falsy
resulting URL raises `RuntimeError("Couldn't extract stream URL")`
(lines 90-91). -/
def pickStream (info_url info_acodec : Option String) (fmts : List YFormat) :
    Except String String :=
  if truthy info_url && truthy info_acodec then
    Except.ok (info_url.getD "")
  else
    let audio := fmts.find? audioOnly
    let chosen : Option YFormat :=
      match audio with
      | some f => some f
      | none => fmts.getLast?
    let stream_url : Option String :=
      match chosen with
      | some f => f.url
      | none => none
    match stream_url with
    | some u => if u = "" then Except.error "Couldn't extract stream URL" else Except.ok u
    | none => Except.error "Couldn't extract stream URL"

/-- Claim C8: when the first candidate lacks a usable audio stream (no
truthy top-level url together with a truthy audio codec), the resolver
selects the first formats entry with an audio codec and no video codec and
returns its URL; if no format matches, it falls back to the last available
format's URL; and whenever no stream URL can be determined the resolution
fails with the human-readable cause "Couldn't extract stream URL". -/
theorem pickStream_fallback (info_url info_acodec : Option String) (fmts : List YFormat)
    (h : (truthy info_url && truthy info_acodec) = false) :
    (∀ f u, fmts.find? audioOnly = some f → f.url = some u → u ≠ "" →
        pickStream info_url info_acodec fmts = Except.ok u) ∧
    (∀ g u, fmts.find? audioOnly = none → fmts.getLast? = some g → g.url = some u →
        u ≠ "" → pickStream info_url info_acodec fmts = Except.ok u) ∧
    (fmts = [] → pickStream info_url info_acodec fmts
        = Except.error "Couldn't extract stream URL") ∧
    (∀ msg, pickStream info_url info_acodec fmts = Except.error msg →
        msg = "Couldn't extract stream URL") := by
  refine ⟨?_, ?_, ?_, ?_⟩
  · intro f u hf hu hne
    simp [pickStream, h, hf, hu, hne]
  · intro g u hfind hlast hu hne
    simp [pickStream, h, hfind, hlast, hu, hne]
  · intro hnil
    subst hnil
    simp [pickStream, h]
  · intro msg hmsg
    unfold pickStream at hmsg
    rw [h] at hmsg
    simp only [Bool.false_eq_true, if_false] at hmsg
    split at hmsg
    · split at hmsg
      · injection hmsg with h2
        exact h2.symm
      · exact absurd hmsg (by simp)
    · injection hmsg with h2
      exact h2.symm

/-- A video-only format followed by an audio-only format. -/
def videoFmt : YFormat := { acodec := none, video_codec := some "h264", url := some "vid" }

def audioFmt : YFormat := { acodec := some "opus", video_codec := none, url := some "aud" }

/-- Witness for C8: with no usable top-level audio URL, the resolver picks
the audio-only format's URL, skipping the earlier video-only one. -/
theorem pickStream_fallback_witness :
    pickStream none none [videoFmt, audioFmt] = Except.ok "aud" :=
  (pickStream_fallback none none [videoFmt, audioFmt] rfl).1 audioFmt "aud" rfl rfl
    (by intro h; exact absurd h (by decide))

/-- The fields of an extraction-result dict that `_ydl_extract` reads
(src/bot.py lines 69-91). -/
structure MediaInfo where
  title : Option String
  duration : Option Nat
  webpage_url : Option String
  original_url : Option String
  url : Option String
  acodec : Option String
  formats : Option (List YFormat)
deriving DecidableEq

/-- The value returned by `ydl.extract_info`: a top-level info dict that may
carry an `entries` list of per-hit info dicts (src/bot.py lines 69-70). -/
structure ExtractResult where
  top : MediaInfo
  entries : Option (List MediaInfo)
deriving DecidableEq

/-- How a resolution attempt can fail: an uncaught Python `IndexError` from
subscripting an empty list (src/bot.py line 71), or the deliberate
`RuntimeError` with its message (src/bot.py line 91). -/
inductive ExtractFailure
  | indexError
  | runtimeError (msg : String)
deriving DecidableEq

/-- The candidate selection of src/bot.py lines 70-71: when the result has
an `entries` key the code subscripts `info["entries"][0]` with no emptiness
check, so an empty hit list raises `IndexError`. -/
def selectEntry (r : ExtractResult) : Except ExtractFailure MediaInfo :=
  match r.entries with
  | some (e :: _) => Except.ok e
  | some [] => Except.error ExtractFailure.indexError
  | none => Except.ok r.top

/-- Python `a or b` on an optional string against a default
(src/bot.py lines 72, 80). -/
def orElseS (a : Option String) (b : String) : String :=
  match a with
  | some s => if s = "" then b else s
  | none => b

/-- The whole of `_ydl_extract` after the network call (src/bot.py
lines 69-92): select the candidate info dict, derive title, duration and
page URL, pick the stream URL, and return the tuple
(stream_url, title, duration, page_url); failures are the `IndexError` of
line 71 or the `RuntimeError` of line 91. -/
def ydl_extract_model (query : String) (r : ExtractResult) :
    Except ExtractFailure (String × String × Option String × String) :=
  match selectEntry r with
  | Except.error e => Except.error e
  | Except.ok info =>
    let title := orElseS info.title "Unknown"
    let duration := durationField info.duration
    let page_url := orElseS info.webpage_url (orElseS info.original_url query)
    match pickStream info.url info.acodec (info.formats.getD []) with
    | Except.ok u => Except.ok (u, title, duration, page_url)
    | Except.error m => Except.error (ExtractFailure.runtimeError m)

/-- Claim C10 (implicit): `_ydl_extract` subscripts the extraction result's
`entries` list without an emptiness check, so every search whose extraction
yields an empty `entries` list fails with the unguarded IndexError, which is
distinct from every RuntimeError carrying a human-readable message. -/
theorem ydl_extract_empty_entries_index_error (query : String) (top : MediaInfo) :
    ydl_extract_model query { top := top, entries := some [] }
      = Except.error ExtractFailure.indexError ∧
    ∀ msg, ExtractFailure.indexError ≠ ExtractFailure.runtimeError msg := by
  constructor
  · rfl
  · intro msg hcontra
    exact ExtractFailure.noConfusion hcontra

/-- Program counter of one `play_next` task under asyncio's cooperative
scheduling: created by `asyncio.create_task` but not yet holding the chat's
lock (src/bot.py lines 181, 108); holding the lock at the `while` re-check
(line 109); holding the lock while polling a playing track (lines 124-127);
or returned. -/
inductive TaskPC
  | acquiring
  | dequeuing
  | waiting
  | finished
deriving DecidableEq

/-- Whether a task in this state holds `players_lock[cid]` (the `async with`
of src/bot.py line 108 spans the whole drain). -/
def holdsLock : TaskPC → Bool
  | TaskPC.dequeuing => true
  | TaskPC.waiting => true
  | _ => false

/-- The shared state of one chat together with all `play_next` tasks ever
created for it (src/bot.py lines 59-61, 181). -/
structure Sys where
  queue : List Track
  now : Option Track
  tasks : List TaskPC
deriving DecidableEq

/-- Process start: empty deque, empty slot, no tasks. -/
def sysInit : Sys := { queue := [], now := none, tasks := [] }

/-- One atomic step a scheduler can run: a command handler's state mutation
or one resumption of task i. -/
inductive Act
  | playCmd (t : Track)
  | skipCmd
  | leaveCmd
  | acquire (i : Nat)
  | deqStep (i : Nat) (ok : Bool)
  | poll (i : Nat)
  | ceiling (i : Nat)
deriving DecidableEq

def someHoldsLock (ts : List TaskPC) : Bool := ts.any holdsLock

/-- The interleaving semantics. `playCmd` is `cmd_play` after resolution:
append the track, and start a new `play_next` task exactly when
`now_playing` is `None` (src/bot.py lines 176, 180-181).  `skipCmd` is
`cmd_skip`'s mutation: clear a non-empty slot (lines 206-209).  `leaveCmd`
is `cmd_leave`'s mutation (lines 241-242). `acquire` is task i entering the
`async with` when no task holds the lock (line 108). `deqStep` is task i
running one `while` check plus loop body: pop the head and start it
(`ok` = the driver accepted; a double failure ends the task by re-raising,
lines 109-120), or exit, leave and clear the slot on an empty deque
(lines 129-134). `poll` is one wait-loop check observing a cleared slot
(lines 126-127); `ceiling` is the 4-hour cap expiring (line 124).  Steps
whose guard does not hold change nothing. -/
def step (a : Act) (s : Sys) : Sys :=
  match a with
  | Act.playCmd t =>
      let q := s.queue ++ [t]
      if s.now = none then { s with queue := q, tasks := s.tasks ++ [TaskPC.acquiring] }
      else { s with queue := q }
  | Act.skipCmd =>
      match s.now with
      | none => s
      | some _ => { s with now := none }
  | Act.leaveCmd => { s with queue := [], now := none }
  | Act.acquire i =>
      if s.tasks.get? i = some TaskPC.acquiring ∧ someHoldsLock s.tasks = false
      then { s with tasks := s.tasks.set i TaskPC.dequeuing } else s
  | Act.deqStep i ok =>
      if s.tasks.get? i = some TaskPC.dequeuing then
        match s.queue with
        | [] => { s with now := none, tasks := s.tasks.set i TaskPC.finished }
        | t :: rest =>
            if ok then { queue := rest, now := some t, tasks := s.tasks.set i TaskPC.waiting }
            else { queue := rest, now := none, tasks := s.tasks.set i TaskPC.finished }
      else s
  | Act.poll i =>
      if s.tasks.get? i = some TaskPC.waiting ∧ s.now = none
      then { s with tasks := s.tasks.set i TaskPC.dequeuing } else s
  | Act.ceiling i =>
      if s.tasks.get? i = some TaskPC.waiting
      then { s with tasks := s.tasks.set i TaskPC.dequeuing } else s

/-- The state after running a sequence of scheduled steps from process
start. -/
def reach (acts : List Act) : Sys :=
  List.foldl (fun s a => step a s) sysInit acts

/-- Number of live tasks currently inside the `async with players_lock`
region. -/
def holders : List TaskPC → Nat
  | [] => 0
  | p :: rest => (if holdsLock p then 1 else 0) + holders rest

theorem holders_append (a b : List TaskPC) :
    holders (a ++ b) = holders a + holders b := by
  induction a with
  | nil => simp [holders]
  | cons p t ih => simp [holders, ih]; omega

theorem holders_of_not_any (ts : List TaskPC) (h : someHoldsLock ts = false) :
    holders ts = 0 := by
  induction ts with
  | nil => rfl
  | cons a t ih =>
      simp [someHoldsLock, List.any_cons] at h
      have ht : someHoldsLock t = false := by
        simp only [someHoldsLock, List.any_eq_false]
        intro x hx
        simp [h.2 x hx]
      simp [holders, h.1, ih ht]

theorem holders_set_le (l : List TaskPC) (i : Nat) (p : TaskPC) :
    holders (l.set i p) ≤ holders l + 1 := by
  induction l generalizing i with
  | nil => simp [holders]
  | cons a t ih =>
      cases i with
      | zero =>
          show holders (p :: t) ≤ holders (a :: t) + 1
          simp only [holders]
          have hp1 : (if holdsLock p then 1 else 0) ≤ 1 := by
            cases holdsLock p <;> simp
          omega
      | succ j =>
          show holders (a :: t.set j p) ≤ holders (a :: t) + 1
          simp only [holders]
          have := ih j
          omega

theorem holders_set_nonholder (l : List TaskPC) (i : Nat) (p : TaskPC)
    (hp : holdsLock p = false) : holders (l.set i p) ≤ holders l := by
  induction l generalizing i with
  | nil => simp [holders]
  | cons a t ih =>
      cases i with
      | zero =>
          show holders (p :: t) ≤ holders (a :: t)
          have h0 : holders (p :: t) = holders t := by
            simp [holders, hp]
          rw [h0]
          simp only [holders]
          omega
      | succ j =>
          show holders (a :: t.set j p) ≤ holders (a :: t)
          simp only [holders]
          have := ih j
          omega

theorem holders_set_same (l : List TaskPC) (i : Nat) (p q : TaskPC)
    (hq : l.get? i = some q) (hpq : holdsLock p = holdsLock q) :
    holders (l.set i p) = holders l := by
  induction l generalizing i with
  | nil => simp at hq
  | cons a t ih =>
      cases i with
      | zero =>
          have ha : a = q := by simpa using hq
          show holders (p :: t) = holders (a :: t)
          simp only [holders, hpq, ha]
      | succ j =>
          have hj : t.get? j = some q := by simpa using hq
          show holders (a :: t.set j p) = holders (a :: t)
          simp only [holders, ih j hj]

theorem holders_step_le (a : Act) (s : Sys) (h : holders s.tasks ≤ 1) :
    holders (step a s).tasks ≤ 1 := by
  cases a with
  | playCmd t =>
      by_cases hn : s.now = none
      · simpa [step, hn, holders_append, holders, holdsLock] using h
      · simpa [step, hn] using h
  | skipCmd =>
      cases hn : s.now <;> simpa [step, hn] using h
  | leaveCmd => simpa [step] using h
  | acquire i =>
      by_cases hc : s.tasks.get? i = some TaskPC.acquiring ∧ someHoldsLock s.tasks = false
      · simp only [step]
        rw [if_pos hc]
        show holders (s.tasks.set i TaskPC.dequeuing) ≤ 1
        have h0 : holders s.tasks = 0 := holders_of_not_any _ hc.2
        have hle := holders_set_le s.tasks i TaskPC.dequeuing
        omega
      · simp only [step]
        rw [if_neg hc]
        exact h
  | deqStep i ok =>
      by_cases hc : s.tasks.get? i = some TaskPC.dequeuing
      · simp only [step]
        rw [if_pos hc]
        cases hq : s.queue with
        | nil =>
            show holders (s.tasks.set i TaskPC.finished) ≤ 1
            have := holders_set_nonholder s.tasks i TaskPC.finished rfl
            omega
        | cons t rest =>
            cases ok with
            | true =>
                show holders (s.tasks.set i TaskPC.waiting) ≤ 1
                rw [holders_set_same s.tasks i TaskPC.waiting TaskPC.dequeuing hc rfl]
                exact h
            | false =>
                show holders (s.tasks.set i TaskPC.finished) ≤ 1
                have := holders_set_nonholder s.tasks i TaskPC.finished rfl
                omega
      · simp only [step]
        rw [if_neg hc]
        exact h
  | poll i =>
      by_cases hc : s.tasks.get? i = some TaskPC.waiting ∧ s.now = none
      · simp only [step]
        rw [if_pos hc]
        show holders (s.tasks.set i TaskPC.dequeuing) ≤ 1
        rw [holders_set_same s.tasks i TaskPC.dequeuing TaskPC.waiting hc.1 rfl]
        exact h
      · simp only [step]
        rw [if_neg hc]
        exact h
  | ceiling i =>
      by_cases hc : s.tasks.get? i = some TaskPC.waiting
      · simp only [step]
        rw [if_pos hc]
        show holders (s.tasks.set i TaskPC.dequeuing) ≤ 1
        rw [holders_set_same s.tasks i TaskPC.dequeuing TaskPC.waiting hc rfl]
        exact h
      · simp only [step]
        rw [if_neg hc]
        exact h

theorem holders_foldl_le (acts : List Act) :
    ∀ s : Sys, holders s.tasks ≤ 1 →
      holders (List.foldl (fun s a => step a s) s acts).tasks ≤ 1 := by
  induction acts with
  | nil => intro s hs; simpa using hs
  | cons a rest ih =>
      intro s hs
      exact ih (step a s) (holders_step_le a s hs)

/-- Claim C5 (amended): a successful enqueue starts one new Sequencer task
exactly when the currently-playing slot is empty, even if a previous
Sequencer task is still alive (after a skip empties the slot, a new task is
created next to the live one), so more than one task can be alive; the
per-chat `players_lock` nonetheless guarantees that in every reachable
state at most one Sequencer task is inside the drain loop driving the
chat's voice session. -/
theorem sequencer_lock_exclusive :
    (∀ acts : List Act, holders (reach acts).tasks ≤ 1) ∧
    (∀ (s : Sys) (t : Track),
        (step (Act.playCmd t) s).tasks.length
          = s.tasks.length + (if s.now = none then 1 else 0)) := by
  constructor
  · intro acts
    exact holders_foldl_le acts sysInit (by simp [sysInit, holders])
  · intro s t
    by_cases hn : s.now = none <;> simp [step, hn]

/-- The schedule reaching the race: enqueue A on an idle chat (one task is
created), the task acquires the lock, pops A and starts playing it, then a
skip on the empty queue clears the slot while the task still polls. -/
def raceTrace : List Act :=
  [Act.playCmd trackA, Act.acquire 0, Act.deqStep 0 true, Act.skipCmd]

/-- Counterexample for C5: after `raceTrace` the Sequencer task is still
active (polling, holding the lock) and `now_playing` is `None`, so the next
enqueue's guard `if now_playing[cid] is None` (src/bot.py line 180) creates
a second task: one additional task is started while a Sequencer task is
already active, contradicting the claim that zero additional tasks are
started. -/
theorem cmd_play_second_task_cex :
    (reach raceTrace).tasks = [TaskPC.waiting] ∧
    (reach raceTrace).now = none ∧
    (step (Act.playCmd trackB) (reach raceTrace)).tasks
      = [TaskPC.waiting, TaskPC.acquiring] := by
  refine ⟨?_, ?_, ?_⟩ <;> rfl

/-- An info dict with every optional field absent. -/
def emptyInfo : MediaInfo :=
  { title := none, duration := none, webpage_url := none, original_url := none,
    url := none, acodec := none, formats := none }

/-- Witness for C10: a concrete search whose extraction produced an empty
hit list fails with the bare IndexError. -/
theorem ydl_extract_empty_entries_witness :
    ydl_extract_model "lofi beats" { top := emptyInfo, entries := some [] }
      = Except.error ExtractFailure.indexError ∧
    ExtractFailure.indexError ≠ ExtractFailure.runtimeError "Couldn't extract stream URL" :=
  ⟨(ydl_extract_empty_entries_index_error "lofi beats" emptyInfo).1,
   (ydl_extract_empty_entries_index_error "lofi beats" emptyInfo).2
     "Couldn't extract stream URL"⟩
